import Mathlib

/-!
Verification development for src/tool/Image_format_conversion.py.

Shallow embedding conventions:
* Paths are strings; the pathlib operations the code performs (suffix,
  with_suffix, name) are implemented following CPython pathlib semantics.
* The external collaborators (filesystem, PIL codec) are an explicit
  environment record (Env, BatchEnv).  The PIL primitives used by the code
  (Image.open, ImageOps.fit, Image.resize, paste onto a fresh background)
  are modelled by their documented effect on mode and dimensions, and each
  image operation performed is recorded in an operation trace, so theorems
  can talk about which operations ran and in which order.
* Exceptions are the error branch of Except; the try/except boundary of
  convert_single_image is the convOk wrapper.
-/

/-- Python str.split for a single-character separator, over char lists. -/
def splitChar (sep : Char) : List Char → List (List Char)
  | [] => [[]]
  | c :: cs =>
    match splitChar sep cs with
    | [] => if c = sep then [[], []] else [[c]]
    | g :: gs => if c = sep then [] :: g :: gs else (c :: g) :: gs

/-- Python str.split for a single-character separator, over strings. -/
def splitOnChar (sep : Char) (s : String) : List String :=
  (splitChar sep s.toList).map List.asString

/-- Python str.lower, ASCII behaviour. -/
def lowerStr (s : String) : String :=
  String.mk (s.toList.map Char.toLower)

/-- pathlib PurePath.name: the final nonempty path component. -/
def pathName (p : String) : String :=
  ((splitOnChar '/' p).filter (fun s => s ≠ "")).getLastD ""

/-- pathlib PurePath.suffix: the extension of the final component, empty
unless the last dot sits strictly inside the name. -/
def pySuffix (p : String) : String :=
  let cs := (pathName p).toList
  match cs.reverse.findIdx? (fun c => c = '.') with
  | none => ""
  | some j =>
    let i := cs.length - 1 - j
    if 0 < i ∧ i + 1 < cs.length then String.mk (cs.drop i) else ""

/-- pathlib PurePath.with_suffix applied to a bare file name. -/
def pyWithSuffix (name suffix : String) : String :=
  let old := pySuffix name
  if old = "" then name ++ suffix
  else String.mk (name.toList.take (name.toList.length - old.toList.length)) ++ suffix

/-- The SUPPORTED_FORMATS table of the module, verbatim. -/
def SUPPORTED_FORMATS : List (String × String) :=
  [(".jpg", "JPEG"), (".jpeg", "JPEG"), (".png", "PNG"), (".bmp", "BMP"),
   (".tiff", "TIFF"), (".tif", "TIFF"), (".gif", "GIF"), (".webp", "WEBP"),
   (".ico", "ICO")]

/-- Dictionary lookup in SUPPORTED_FORMATS. -/
def lookupFormat (ext : String) : Option String :=
  (SUPPORTED_FORMATS.find? (fun p => p.1 == ext)).map (fun p => p.2)

/-- ImageConverter.is_supported_format. -/
def is_supported_format (file_path : String) : Bool :=
  (lookupFormat (lowerStr (pySuffix file_path))).isSome

/-- ImageConverter.get_output_format: mapped format, defaulting to JPEG. -/
def get_output_format (output_path : String) : String :=
  (lookupFormat (lowerStr (pySuffix output_path))).getD "JPEG"

/-- The converter state set up by ImageConverter.__init__. -/
structure ImageConverter where
  quality : Int
  optimize : Bool
deriving DecidableEq

/-- ImageConverter.__init__: quality is clamped by max(1, min(100, quality)). -/
def mkImageConverter (quality : Int) (optimize : Bool) : ImageConverter :=
  ⟨max 1 (min 100 quality), optimize⟩

/-- A decoded in-memory image: colour mode plus pixel dimensions. -/
structure PImage where
  mode : String
  width : Int
  height : Int
deriving DecidableEq

/-- The keyword arguments assembled for img.save. -/
structure SaveParams where
  optimize : Bool
  quality : Option Int
  progressive : Bool
  compress_level : Option Int
  method : Option Int
deriving DecidableEq

/-- The save_kwargs selection of convert_single_image (lines 121-132). -/
def saveParams (output_format : String) (quality : Int) (optimize : Bool) : SaveParams :=
  if output_format = "JPEG" then ⟨optimize, some quality, true, none, none⟩
  else if output_format = "PNG" then ⟨optimize, none, false, some 6, none⟩
  else if output_format = "WEBP" then ⟨optimize, some quality, false, none, some 6⟩
  else ⟨optimize, none, false, none, none⟩

/-- Trace of the image operations a conversion performed, in order. -/
inductive Op where
  | decoded (path : String)
  | composited (usedAlphaMask : Bool) (w h : Int) (bgMode : String) (bgColor : Int × Int × Int)
  | fitted (w h : Int) (filter : String)
  | resizedTo (w h : Int) (filter : String)
  | saved (path fmt : String) (params : SaveParams)
deriving DecidableEq

/-- Result of the body of convert_single_image before the except handler:
either an early return False with the logged reason, or the final image
with the trace of operations that produced it. -/
inductive ConvRes where
  | earlyFalse (reason : String)
  | done (ops : List Op) (img : PImage)
deriving DecidableEq

/-- External collaborators of one conversion: filesystem existence, mkdir,
the codec decode, resize-primitive errors and save errors. -/
structure Env where
  fileExists : String → Bool
  mkdirErr : String → Option String
  decode : String → Except String PImage
  resizeErr : Int → Int → Option String
  saveErr : String → String → Option String

/-- The mode test of line 105: output format JPEG or BMP and mode RGBA or LA. -/
def needsComposite (output_format mode : String) : Bool :=
  (output_format == "JPEG" || output_format == "BMP") && (mode == "RGBA" || mode == "LA")

/-- The body of convert_single_image (the code inside the try, lines 88-138):
existence check, format check, mkdir, decode, transparency normalization,
optional resize, save.  Except.error is a raised exception. -/
def convertBody (env : Env) (conv : ImageConverter) (input_path output_path : String)
    (resize : Option (Int × Int)) (maintain_aspect : Bool) : Except String ConvRes :=
  if env.fileExists input_path = false then .ok (.earlyFalse "input file does not exist")
  else if is_supported_format input_path = false then .ok (.earlyFalse "unsupported input format")
  else
    match env.mkdirErr output_path with
    | some e => .error e
    | none =>
      match env.decode input_path with
      | .error e => .error e
      | .ok img0 =>
        let output_format := get_output_format output_path
        let comp := needsComposite output_format img0.mode
        let img1 : PImage := if comp then ⟨"RGB", img0.width, img0.height⟩ else img0
        let compOps : List Op :=
          if comp then
            [.composited (img0.mode == "RGBA") img0.width img0.height "RGB" (255, 255, 255)]
          else []
        let params := saveParams output_format conv.quality conv.optimize
        match resize with
        | none =>
          match env.saveErr output_path output_format with
          | some e => .error e
          | none =>
            .ok (.done (Op.decoded input_path :: compOps ++
              [Op.saved output_path output_format params]) img1)
        | some (w, h) =>
          match env.resizeErr w h with
          | some e => .error e
          | none =>
            let img2 : PImage := ⟨img1.mode, w, h⟩
            let rOp : Op := if maintain_aspect then .fitted w h "LANCZOS"
              else .resizedTo w h "LANCZOS"
            match env.saveErr output_path output_format with
            | some e => .error e
            | none =>
              .ok (.done (Op.decoded input_path :: compOps ++
                [rOp, Op.saved output_path output_format params]) img2)

/-- The except handler: a raised exception becomes False, an early return
is False, reaching the save is True. -/
def convOk : Except String ConvRes → Bool
  | .ok (.done _ _) => true
  | _ => false

/-- ImageConverter.convert_single_image: body wrapped in the try/except. -/
def convert_single_image (env : Env) (conv : ImageConverter) (input_path output_path : String)
    (resize : Option (Int × Int)) (maintain_aspect : Bool) : Bool :=
  convOk (convertBody env conv input_path output_path resize maintain_aspect)

/-- Python int applied to a string: surrounding whitespace allowed, optional
sign, at least one decimal digit; anything else raises ValueError (none). -/
def pyInt? (s : String) : Option Int :=
  let t := ((s.toList.dropWhile Char.isWhitespace).reverse.dropWhile Char.isWhitespace).reverse
  let signed : Int × List Char :=
    match t with
    | '-' :: rest => (-1, rest)
    | '+' :: rest => (1, rest)
    | rest => (1, rest)
  if signed.2 ≠ [] ∧ signed.2.all Char.isDigit then
    some (signed.1 * Int.ofNat (signed.2.foldl (fun acc c => 10 * acc + (c.toNat - '0'.toNat)) 0))
  else none

/-- The resize argument parsing of main (lines 224-231): lower the string,
split on x, convert each part with int, unpack exactly two values; any
ValueError is caught and the request rejected (none). -/
def parseResize (s : String) : Option (Int × Int) :=
  match (splitOnChar 'x' (lowerStr s)).mapM pyInt? with
  | some [w, h] => some (w, h)
  | _ => none

/-- One entry produced by input_path.glob: its path relative to the input
directory (parent components and file name) and whether is_file holds. -/
structure GlobEntry where
  dirs : List String
  name : String
  isFile : Bool
deriving DecidableEq

/-- str(file_path): the glob entry re-rooted under the input directory. -/
def entryPath (input_dir : String) (f : GlobEntry) : String :=
  input_dir ++ "/" ++ String.intercalate "/" (f.dirs ++ [f.name])

/-- output_path / relative_path.with_suffix(target_ext) of line 180. -/
def outFilePath (output_dir target_ext : String) (f : GlobEntry) : String :=
  output_dir ++ "/" ++ String.intercalate "/" (f.dirs ++ [pyWithSuffix f.name target_ext])

/-- External collaborators of one batch run: input directory existence, the
glob listing, existence of output files, and the per-file conversion
environment. -/
structure BatchEnv where
  dirExists : Bool
  entries : List GlobEntry
  outputExists : String → Bool
  fileEnv : GlobEntry → Env

instance : DecidableEq (Except String ConvRes) := fun x y =>
  match x, y with
  | .error a, .error b =>
    if h : a = b then isTrue (h ▸ rfl) else isFalse (fun hh => h (by cases hh; rfl))
  | .error _, .ok _ => isFalse (fun hh => Except.noConfusion hh)
  | .ok _, .error _ => isFalse (fun hh => Except.noConfusion hh)
  | .ok a, .ok b =>
    if h : a = b then isTrue (h ▸ rfl) else isFalse (fun hh => h (by cases hh; rfl))

/-- What happened to one processed candidate, recorded alongside the tally. -/
inductive Outcome where
  | skippedFile
  | ran (res : Except String ConvRes)
deriving DecidableEq

/-- The stats dictionary of batch_convert plus the per-file observation log
(an instrumentation field; the control flow is untouched by it). -/
structure BatchResult where
  success : Nat
  failed : Nat
  skipped : Nat
  log : List (GlobEntry × Outcome)
deriving DecidableEq

/-- The candidate test of line 177: is_file and supported extension. -/
def isCandidate (input_dir : String) (f : GlobEntry) : Bool :=
  f.isFile && is_supported_format (entryPath input_dir f)

/-- The skip test of line 183: output exists and the candidate extension,
lower-cased, equals the target extension. -/
def skipCond (benv : BatchEnv) (input_dir output_dir target_ext : String)
    (f : GlobEntry) : Bool :=
  benv.outputExists (outFilePath output_dir target_ext f) &&
    (lowerStr (pySuffix (entryPath input_dir f)) == target_ext)

/-- One iteration of the loop of batch_convert (lines 176-192): non-candidates
are passed over; candidates are either skipped or converted, with
convert_single_image called with no resize argument (the defaults resize=None,
maintain_aspect=True of the signature). -/
def batchStep (conv : ImageConverter) (benv : BatchEnv)
    (input_dir output_dir target_ext : String)
    (acc : BatchResult) (f : GlobEntry) : BatchResult :=
  if isCandidate input_dir f then
    if skipCond benv input_dir output_dir target_ext f then
      ⟨acc.success, acc.failed, acc.skipped + 1, acc.log ++ [(f, Outcome.skippedFile)]⟩
    else
      let res := convertBody (benv.fileEnv f) conv (entryPath input_dir f)
        (outFilePath output_dir target_ext f) none true
      if convOk res then
        ⟨acc.success + 1, acc.failed, acc.skipped, acc.log ++ [(f, Outcome.ran res)]⟩
      else
        ⟨acc.success, acc.failed + 1, acc.skipped, acc.log ++ [(f, Outcome.ran res)]⟩
  else acc

/-- ImageConverter.batch_convert.  The recursive flag only selects the glob
pattern; the listing itself is supplied by the environment. -/
def batch_convert (conv : ImageConverter) (benv : BatchEnv)
    (input_dir output_dir target_format : String) (recursive : Bool) : BatchResult :=
  if benv.dirExists = false then ⟨0, 0, 0, []⟩
  else
    let target_ext := "." ++ lowerStr target_format
    if (lookupFormat target_ext).isNone then ⟨0, 0, 0, []⟩
    else benv.entries.foldl (batchStep conv benv input_dir output_dir target_ext) ⟨0, 0, 0, []⟩

/-- The image the transparency-normalization step of line 105 hands on: a
fresh white RGB background of identical size when the target needs it, the
decoded image unchanged otherwise. -/
def img1Of (output_path : String) (d : PImage) : PImage :=
  if needsComposite (get_output_format output_path) d.mode then ⟨"RGB", d.width, d.height⟩
  else d

/-- The trace the transparency-normalization step leaves behind. -/
def compOpsOf (output_path : String) (d : PImage) : List Op :=
  if needsComposite (get_output_format output_path) d.mode then
    [Op.composited (d.mode == "RGBA") d.width d.height "RGB" (255, 255, 255)]
  else []

/-- Conversion environment in which every collaborator succeeds and decode
yields the given image. -/
def envAllOk (img : PImage) : Env :=
  ⟨fun _ => true, fun _ => none, fun _ => .ok img, fun _ _ => none, fun _ _ => none⟩

/-- Conversion environment whose decode raises. -/
def envDecodeBoom : Env :=
  ⟨fun _ => true, fun _ => none, fun _ => .error "decode error", fun _ _ => none,
   fun _ _ => none⟩

/-- Batch environment of the C7 witness: three convertible files and one with
an unsupported extension, none of the outputs present. -/
def benvC7 : BatchEnv :=
  ⟨true,
   [⟨[], "a.jpg", true⟩, ⟨[], "b.png", true⟩, ⟨[], "c.gif", true⟩, ⟨[], "d.txt", true⟩],
   fun _ => false,
   fun _ => envAllOk ⟨"RGB", 4, 4⟩⟩

/-- Batch environment of the C2 witness: every output path already exists;
one candidate already has the target extension, the other does not. -/
def benvC2 : BatchEnv :=
  ⟨true,
   [⟨[], "x.png", true⟩, ⟨[], "y.jpg", true⟩],
   fun _ => true,
   fun _ => envAllOk ⟨"RGB", 4, 4⟩⟩

theorem needsComposite_iff (f m : String) :
    needsComposite f m = true ↔ ((f = "JPEG" ∨ f = "BMP") ∧ (m = "RGBA" ∨ m = "LA")) := by
  simp [needsComposite]

/-- Inversion: a conversion without a resize target that reached the save
decoded some image and saved the normalized image, with exactly this trace. -/
theorem body_done_none (env : Env) (conv : ImageConverter) (i o : String) (a : Bool)
    (ops : List Op) (img : PImage)
    (hbody : convertBody env conv i o none a = .ok (.done ops img)) :
    ∃ d, env.decode i = .ok d ∧
      ops = Op.decoded i :: compOpsOf o d ++
        [Op.saved o (get_output_format o)
          (saveParams (get_output_format o) conv.quality conv.optimize)] ∧
      img = img1Of o d := by
  unfold convertBody at hbody
  by_cases h1 : env.fileExists i = false
  · rw [if_pos h1] at hbody; simp at hbody
  · rw [if_neg h1] at hbody
    by_cases h2 : is_supported_format i = false
    · rw [if_pos h2] at hbody; simp at hbody
    · rw [if_neg h2] at hbody
      cases h3 : env.mkdirErr o with
      | some e => rw [h3] at hbody; simp at hbody
      | none =>
        rw [h3] at hbody
        cases h4 : env.decode i with
        | error e => rw [h4] at hbody; simp at hbody
        | ok d =>
          rw [h4] at hbody
          refine ⟨d, rfl, ?_⟩
          simp only [] at hbody
          cases h6 : env.saveErr o (get_output_format o) with
          | some e => rw [h6] at hbody; simp at hbody
          | none =>
            rw [h6] at hbody
            simp only [Except.ok.injEq, ConvRes.done.injEq] at hbody
            exact ⟨hbody.1.symm, hbody.2.symm⟩

/-- Inversion: a conversion with a resize target that reached the save decoded
some image and saved an image with exactly the target dimensions, with
exactly this trace. -/
theorem body_done_some (env : Env) (conv : ImageConverter) (i o : String) (w h : Int)
    (a : Bool) (ops : List Op) (img : PImage)
    (hbody : convertBody env conv i o (some (w, h)) a = .ok (.done ops img)) :
    ∃ d, env.decode i = .ok d ∧ env.resizeErr w h = none ∧
      ops = Op.decoded i :: compOpsOf o d ++
        [(if a then Op.fitted w h "LANCZOS" else Op.resizedTo w h "LANCZOS"),
         Op.saved o (get_output_format o)
           (saveParams (get_output_format o) conv.quality conv.optimize)] ∧
      img = ⟨(img1Of o d).mode, w, h⟩ := by
  unfold convertBody at hbody
  by_cases h1 : env.fileExists i = false
  · rw [if_pos h1] at hbody; simp at hbody
  · rw [if_neg h1] at hbody
    by_cases h2 : is_supported_format i = false
    · rw [if_pos h2] at hbody; simp at hbody
    · rw [if_neg h2] at hbody
      cases h3 : env.mkdirErr o with
      | some e => rw [h3] at hbody; simp at hbody
      | none =>
        rw [h3] at hbody
        cases h4 : env.decode i with
        | error e => rw [h4] at hbody; simp at hbody
        | ok d =>
          rw [h4] at hbody
          refine ⟨d, rfl, ?_⟩
          simp only [] at hbody
          cases h5 : env.resizeErr w h with
          | some e => rw [h5] at hbody; simp at hbody
          | none =>
            rw [h5] at hbody
            refine ⟨rfl, ?_⟩
            cases h6 : env.saveErr o (get_output_format o) with
            | some e => rw [h6] at hbody; simp at hbody
            | none =>
              rw [h6] at hbody
              simp only [Except.ok.injEq, ConvRes.done.injEq] at hbody
              exact ⟨hbody.1.symm, hbody.2.symm⟩

/-- C1 counterexample: the claim says a resize target with non-positive
components is rejected with an invalid-resize-dimensions failure before any
decode.  In fact the CLI parser accepts 0x100 and -5x10 as integer pairs, and
the pipeline, given the target (0, 100), decodes the input and applies the
resize with no dimension validation at all, completing successfully when the
codec raises nothing. -/
theorem c1_counterexample :
    parseResize "0x100" = some (0, 100) ∧
    parseResize "-5x10" = some (-5, 10) ∧
    convertBody (envAllOk ⟨"RGB", 10, 10⟩) (mkImageConverter 95 true) "a.png" "b.jpg"
        (some (0, 100)) true =
      .ok (.done [Op.decoded "a.png", Op.fitted 0 100 "LANCZOS",
        Op.saved "b.jpg" "JPEG" ⟨true, some 95, true, none, none⟩] ⟨"RGB", 0, 100⟩) :=
  ⟨rfl, rfl, rfl⟩

/-- C1 (amended): the pipeline performs no resize-dimension validation.  For
every resize target (w, h), non-positive components included, the conversion
proceeds past decode and succeeds whenever the external collaborators
(filesystem, mkdir, codec decode, codec resize, codec save) raise nothing;
only resize strings that fail integer parsing are rejected, by main, before
the pipeline is entered. -/
theorem c1_no_resize_validation
    (env : Env) (conv : ImageConverter) (input_path output_path : String) (w h : Int)
    (maintain_aspect : Bool) (d : PImage)
    (h1 : env.fileExists input_path = true)
    (h2 : is_supported_format input_path = true)
    (h3 : env.mkdirErr output_path = none)
    (h4 : env.decode input_path = .ok d)
    (h5 : env.resizeErr w h = none)
    (h6 : env.saveErr output_path (get_output_format output_path) = none) :
    convert_single_image env conv input_path output_path (some (w, h)) maintain_aspect
      = true := by
  unfold convert_single_image convertBody
  rw [h1, h3, h4]
  simp only [h2, Bool.true_eq_false, if_false]
  rw [h5, h6]
  rfl

/-- C1 amended witness: the degenerate target 0x100 converts successfully. -/
theorem c1_no_resize_validation_witness :
    convert_single_image (envAllOk ⟨"RGB", 10, 10⟩) (mkImageConverter 95 true)
      "a.png" "b.jpg" (some (0, 100)) true = true :=
  c1_no_resize_validation (envAllOk ⟨"RGB", 10, 10⟩) (mkImageConverter 95 true)
    "a.png" "b.jpg" 0 100 true ⟨"RGB", 10, 10⟩ rfl rfl rfl rfl rfl rfl

/-- C5: every raised exception inside the body of convert_single_image is
caught at the pipeline boundary and turned into the failure outcome False;
no exception reaches the caller. -/
theorem c5_exceptions_caught
    (env : Env) (conv : ImageConverter) (input_path output_path : String)
    (resize : Option (Int × Int)) (maintain_aspect : Bool) (e : String)
    (herr : convertBody env conv input_path output_path resize maintain_aspect = .error e) :
    convert_single_image env conv input_path output_path resize maintain_aspect = false := by
  unfold convert_single_image
  rw [herr]
  rfl

/-- C5 witness: a decode exception becomes the failure outcome False. -/
theorem c5_exceptions_caught_witness :
    convert_single_image envDecodeBoom (mkImageConverter 95 true) "a.png" "b.jpg"
      none true = false :=
  c5_exceptions_caught envDecodeBoom (mkImageConverter 95 true) "a.png" "b.jpg"
    none true "decode error" rfl

/-- C6: a batch run whose input directory is missing, or whose target format
token does not map to a supported format, returns the zeroed stats and an
empty processing log: no file is processed and nothing is raised. -/
theorem c6_invalid_batch_returns_zeroed
    (conv : ImageConverter) (benv : BatchEnv)
    (input_dir output_dir target_format : String) (recursive : Bool)
    (hbad : benv.dirExists = false ∨ lookupFormat ("." ++ lowerStr target_format) = none) :
    batch_convert conv benv input_dir output_dir target_format recursive = ⟨0, 0, 0, []⟩ := by
  rcases hbad with hbad | hbad <;> simp [batch_convert, hbad]

/-- C6 witness: a missing input directory yields the zeroed stats. -/
theorem c6_invalid_batch_returns_zeroed_witness :
    batch_convert (mkImageConverter 95 true)
      ⟨false, [], fun _ => false, fun _ => envDecodeBoom⟩ "in" "out" "png" false
      = ⟨0, 0, 0, []⟩ :=
  c6_invalid_batch_returns_zeroed (mkImageConverter 95 true)
    ⟨false, [], fun _ => false, fun _ => envDecodeBoom⟩ "in" "out" "png" false (Or.inl rfl)

/-- C8: the quality stored by the constructor is clamped into the interval
from 1 to 100 (150 becomes 100, 0 becomes 1), and the encode-time parameter
selection passes any quality value through unclamped for JPEG and WEBP. -/
theorem c8_quality_clamped : ∀ (q : Int) (b : Bool),
    (1 ≤ (mkImageConverter q b).quality ∧ (mkImageConverter q b).quality ≤ 100) ∧
    (mkImageConverter 150 b).quality = 100 ∧
    (mkImageConverter 0 b).quality = 1 ∧
    (∀ q2 : Int, (saveParams "JPEG" q2 b).quality = some q2 ∧
      (saveParams "WEBP" q2 b).quality = some q2) := by
  intro q b
  refine ⟨⟨le_max_left 1 _, max_le (by norm_num) (min_le_left _ _)⟩, rfl, rfl, ?_⟩
  intro q2
  exact ⟨rfl, rfl⟩

/-- C9: get_output_format is a total function of the path; it returns the
registry entry for a recognized lower-cased extension and the fallback JPEG
for every unrecognized one. -/
theorem c9_get_output_format_total : ∀ p : String,
    (∀ fmt, lookupFormat (lowerStr (pySuffix p)) = some fmt → get_output_format p = fmt) ∧
    (lookupFormat (lowerStr (pySuffix p)) = none → get_output_format p = "JPEG") := by
  intro p
  constructor
  · intro fmt hf
    unfold get_output_format
    rw [hf]
    rfl
  · intro hf
    unfold get_output_format
    rw [hf]
    rfl

/-- C9 witness: an unrecognized extension falls back to JPEG, a recognized
one maps through the registry. -/
theorem c9_get_output_format_total_witness :
    get_output_format "photo.xyz" = "JPEG" ∧ get_output_format "icon.TIF" = "TIFF" :=
  ⟨(c9_get_output_format_total "photo.xyz").2 rfl,
   (c9_get_output_format_total "icon.TIF").1 "TIFF" rfl⟩

/-- C3: a conversion whose target format is JPEG or BMP and whose decoded
image mode is RGBA or LA composites the image onto an opaque white RGB
background of identical dimensions, with the alpha channel as mask exactly
for RGBA, immediately after decode and before any resize or save; an image
whose mode carries no alpha channel is passed through with no composite
operation, its mode unchanged, and unchanged entirely when no resize was
requested. -/
theorem c3_transparency_normalization
    (env : Env) (conv : ImageConverter) (i o : String) (resize : Option (Int × Int))
    (a : Bool) (ops : List Op) (img d : PImage)
    (hdec : env.decode i = .ok d)
    (hbody : convertBody env conv i o resize a = .ok (.done ops img)) :
    (((get_output_format o = "JPEG" ∨ get_output_format o = "BMP") ∧
        (d.mode = "RGBA" ∨ d.mode = "LA")) →
      ops.get? 1 = some (Op.composited (d.mode == "RGBA") d.width d.height "RGB"
        (255, 255, 255)) ∧ img.mode = "RGB") ∧
    (¬ ((get_output_format o = "JPEG" ∨ get_output_format o = "BMP") ∧
        (d.mode = "RGBA" ∨ d.mode = "LA")) →
      (∀ b w h m c, Op.composited b w h m c ∉ ops) ∧ img.mode = d.mode ∧
      (resize = none → img = d)) := by
  cases resize with
  | none =>
    obtain ⟨d2, hd2, hops, himg⟩ := body_done_none env conv i o a ops img hbody
    rw [hdec] at hd2
    cases hd2
    constructor
    · intro hcond
      have hc : needsComposite (get_output_format o) d.mode = true :=
        (needsComposite_iff _ _).mpr hcond
      subst hops himg
      simp [compOpsOf, img1Of, hc]
    · intro hcond
      have hc : needsComposite (get_output_format o) d.mode = false := by
        rcases Bool.eq_false_or_eq_true (needsComposite (get_output_format o) d.mode)
          with hc | hc
        · exact absurd ((needsComposite_iff _ _).mp hc) hcond
        · exact hc
      subst hops himg
      refine ⟨?_, ?_, ?_⟩
      · intro b w h m c
        simp [compOpsOf, hc]
      · simp [img1Of, hc]
      · intro _
        simp [img1Of, hc]
  | some wh =>
    obtain ⟨w, h⟩ := wh
    obtain ⟨d2, hd2, _, hops, himg⟩ := body_done_some env conv i o w h a ops img hbody
    rw [hdec] at hd2
    cases hd2
    constructor
    · intro hcond
      have hc : needsComposite (get_output_format o) d.mode = true :=
        (needsComposite_iff _ _).mpr hcond
      subst hops himg
      simp [compOpsOf, img1Of, hc]
    · intro hcond
      have hc : needsComposite (get_output_format o) d.mode = false := by
        rcases Bool.eq_false_or_eq_true (needsComposite (get_output_format o) d.mode)
          with hc | hc
        · exact absurd ((needsComposite_iff _ _).mp hc) hcond
        · exact hc
      subst hops himg
      refine ⟨?_, ?_, ?_⟩
      · intro b w2 h2 m c
        by_cases ha : a = true <;> simp [compOpsOf, hc, ha]
      · simp [img1Of, hc]
      · intro hnone
        cases hnone

/-- C3 witness: an RGBA decode targeting JPEG is composited (mask used) onto
white immediately after decode, and the final image mode is RGB. -/
theorem c3_transparency_normalization_witness :
    ([Op.decoded "a.png",
      Op.composited true 8 8 "RGB" (255, 255, 255),
      Op.saved "b.jpg" "JPEG" ⟨true, some 95, true, none, none⟩].get? 1 =
        some (Op.composited true 8 8 "RGB" (255, 255, 255))) ∧
    (PImage.mk "RGB" 8 8).mode = "RGB" :=
  (c3_transparency_normalization (envAllOk ⟨"RGBA", 8, 8⟩) (mkImageConverter 95 true)
    "a.png" "b.jpg" none true
    [Op.decoded "a.png", Op.composited true 8 8 "RGB" (255, 255, 255),
     Op.saved "b.jpg" "JPEG" ⟨true, some 95, true, none, none⟩]
    ⟨"RGB", 8, 8⟩ ⟨"RGBA", 8, 8⟩ rfl rfl).1 ⟨Or.inl rfl, Or.inl rfl⟩

/-- C4: a conversion carrying a resize target that reaches the save produces
an image with exactly the requested width and height; with
maintain-aspect-ratio true the operation applied is the centering crop-and-
scale fit with the LANCZOS filter (and no direct resize), with it false the
operation is the direct LANCZOS resize (and no fit). -/
theorem c4_fit_exact_dimensions
    (env : Env) (conv : ImageConverter) (i o : String) (w h : Int) (a : Bool)
    (ops : List Op) (img : PImage)
    (hbody : convertBody env conv i o (some (w, h)) a = .ok (.done ops img)) :
    img.width = w ∧ img.height = h ∧
    (a = true → Op.fitted w h "LANCZOS" ∈ ops ∧ ∀ w2 h2 flt, Op.resizedTo w2 h2 flt ∉ ops) ∧
    (a = false → Op.resizedTo w h "LANCZOS" ∈ ops ∧ ∀ w2 h2 flt, Op.fitted w2 h2 flt ∉ ops) := by
  obtain ⟨d, hd, hre, hops, himg⟩ := body_done_some env conv i o w h a ops img hbody
  subst hops himg
  refine ⟨rfl, rfl, ?_, ?_⟩
  · intro ha
    constructor
    · simp [ha]
    · intro w2 h2 flt
      by_cases hc : needsComposite (get_output_format o) d.mode = true <;>
        simp [compOpsOf, hc, ha]
  · intro ha
    constructor
    · simp [ha]
    · intro w2 h2 flt
      by_cases hc : needsComposite (get_output_format o) d.mode = true <;>
        simp [compOpsOf, hc, ha]

/-- C4 witness: a 1000 by 500 source fitted to 400 by 400 comes out exactly
400 by 400 through the LANCZOS fit. -/
theorem c4_fit_exact_dimensions_witness :
    (PImage.mk "RGB" 400 400).width = 400 ∧ (PImage.mk "RGB" 400 400).height = 400 ∧
    Op.fitted 400 400 "LANCZOS" ∈ [Op.decoded "in.png", Op.fitted 400 400 "LANCZOS",
      Op.saved "out.jpg" "JPEG" ⟨true, some 95, true, none, none⟩] :=
  have H := c4_fit_exact_dimensions (envAllOk ⟨"RGB", 1000, 500⟩) (mkImageConverter 95 true)
    "in.png" "out.jpg" 400 400 true
    [Op.decoded "in.png", Op.fitted 400 400 "LANCZOS",
     Op.saved "out.jpg" "JPEG" ⟨true, some 95, true, none, none⟩] ⟨"RGB", 400, 400⟩ rfl
  ⟨H.1, H.2.1, (H.2.2.1 rfl).1⟩

/-- Accounting invariant of the batch loop: every candidate bumps exactly one
counter (skipped when the skip rule fires, success or failed otherwise), and
non-candidates leave the accumulator untouched. -/
theorem foldl_batch_counts (conv : ImageConverter) (benv : BatchEnv)
    (input_dir output_dir target_ext : String) :
    ∀ (l : List GlobEntry) (acc : BatchResult),
      ((l.foldl (batchStep conv benv input_dir output_dir target_ext) acc).success +
        (l.foldl (batchStep conv benv input_dir output_dir target_ext) acc).failed +
        (l.foldl (batchStep conv benv input_dir output_dir target_ext) acc).skipped
          = acc.success + acc.failed + acc.skipped + l.countP (isCandidate input_dir)) ∧
      ((l.foldl (batchStep conv benv input_dir output_dir target_ext) acc).skipped
          = acc.skipped + l.countP (fun f => isCandidate input_dir f &&
              skipCond benv input_dir output_dir target_ext f)) ∧
      ((l.foldl (batchStep conv benv input_dir output_dir target_ext) acc).success +
        (l.foldl (batchStep conv benv input_dir output_dir target_ext) acc).failed
          = acc.success + acc.failed + l.countP (fun f => isCandidate input_dir f &&
              !skipCond benv input_dir output_dir target_ext f)) := by
  intro l
  induction l with
  | nil => intro acc; simp
  | cons g t ih =>
    intro acc
    have H := ih (batchStep conv benv input_dir output_dir target_ext acc g)
    simp only [List.foldl_cons, List.countP_cons]
    cases hc : isCandidate input_dir g with
    | false =>
      have hstep : batchStep conv benv input_dir output_dir target_ext acc g = acc := by
        simp [batchStep, hc]
      rw [hstep] at H ⊢
      simp only [hc, Bool.false_and, Bool.false_eq_true, if_false, Nat.add_zero]
      exact H
    | true =>
      cases hs : skipCond benv input_dir output_dir target_ext g with
      | true =>
        have hstep : batchStep conv benv input_dir output_dir target_ext acc g =
            ⟨acc.success, acc.failed, acc.skipped + 1,
             acc.log ++ [(g, Outcome.skippedFile)]⟩ := by
          simp [batchStep, hc, hs]
        rw [hstep] at H ⊢
        simp only [hc, hs] at H ⊢
        simp at H ⊢
        omega
      | false =>
        cases hv : convOk (convertBody (benv.fileEnv g) conv (entryPath input_dir g)
            (outFilePath output_dir target_ext g) none true) with
        | true =>
          have hstep : batchStep conv benv input_dir output_dir target_ext acc g =
              ⟨acc.success + 1, acc.failed, acc.skipped,
               acc.log ++ [(g, Outcome.ran (convertBody (benv.fileEnv g) conv
                 (entryPath input_dir g) (outFilePath output_dir target_ext g) none true))]⟩ := by
            simp [batchStep, hc, hs, hv]
          rw [hstep] at H ⊢
          simp only [hc, hs] at H ⊢
          simp at H ⊢
          omega
        | false =>
          have hstep : batchStep conv benv input_dir output_dir target_ext acc g =
              ⟨acc.success, acc.failed + 1, acc.skipped,
               acc.log ++ [(g, Outcome.ran (convertBody (benv.fileEnv g) conv
                 (entryPath input_dir g) (outFilePath output_dir target_ext g) none true))]⟩ := by
            simp [batchStep, hc, hs, hv]
          rw [hstep] at H ⊢
          simp only [hc, hs] at H ⊢
          simp at H ⊢
          omega

/-- Helper: a valid batch run is the fold of batchStep from the zeroed stats. -/
theorem batch_convert_valid (conv : ImageConverter) (benv : BatchEnv)
    (input_dir output_dir target_format : String) (recursive : Bool)
    (hdir : benv.dirExists = true)
    (hfmt : (lookupFormat ("." ++ lowerStr target_format)).isSome = true) :
    batch_convert conv benv input_dir output_dir target_format recursive =
      benv.entries.foldl
        (batchStep conv benv input_dir output_dir ("." ++ lowerStr target_format))
        ⟨0, 0, 0, []⟩ := by
  unfold batch_convert
  rw [hdir]
  have hnone : (lookupFormat ("." ++ lowerStr target_format)).isNone = false := by
    cases hopt : lookupFormat ("." ++ lowerStr target_format) with
    | none => rw [hopt] at hfmt; simp at hfmt
    | some v => rfl
  simp only [hnone, Bool.false_eq_true, if_false]
  simp

/-- C7: in a valid batch run every enumerated candidate (regular file with
supported extension) increments exactly one of the three counters, so their
sum equals the number of candidates; entries that are not candidates
contribute to none of the counts. -/
theorem c7_counts_partition_candidates
    (conv : ImageConverter) (benv : BatchEnv)
    (input_dir output_dir target_format : String) (recursive : Bool)
    (hdir : benv.dirExists = true)
    (hfmt : (lookupFormat ("." ++ lowerStr target_format)).isSome = true) :
    (batch_convert conv benv input_dir output_dir target_format recursive).success +
    (batch_convert conv benv input_dir output_dir target_format recursive).failed +
    (batch_convert conv benv input_dir output_dir target_format recursive).skipped
      = benv.entries.countP (isCandidate input_dir) := by
  rw [batch_convert_valid conv benv input_dir output_dir target_format recursive hdir hfmt]
  have H := (foldl_batch_counts conv benv input_dir output_dir
    ("." ++ lowerStr target_format) benv.entries ⟨0, 0, 0, []⟩).1
  simpa using H

/-- C7 witness: with three convertible files and one unsupported file the
three counters sum to three. -/
theorem c7_counts_partition_candidates_witness :
    (batch_convert (mkImageConverter 95 true) benvC7 "in" "out" "png" false).success +
    (batch_convert (mkImageConverter 95 true) benvC7 "in" "out" "png" false).failed +
    (batch_convert (mkImageConverter 95 true) benvC7 "in" "out" "png" false).skipped = 3 :=
  (c7_counts_partition_candidates (mkImageConverter 95 true) benvC7 "in" "out" "png" false
    rfl rfl).trans (by rfl)

/-- C2: in a valid batch run a candidate is tallied Skipped exactly when its
computed output path exists and its own lower-cased extension equals the
target extension; every other candidate is handed to the converter (tallied
success or failed), in particular a candidate whose output path exists but
whose format differs is converted, not skipped. -/
theorem c2_skip_rule
    (conv : ImageConverter) (benv : BatchEnv)
    (input_dir output_dir target_format : String) (recursive : Bool)
    (hdir : benv.dirExists = true)
    (hfmt : (lookupFormat ("." ++ lowerStr target_format)).isSome = true) :
    ((batch_convert conv benv input_dir output_dir target_format recursive).skipped
      = benv.entries.countP (fun f => isCandidate input_dir f &&
          skipCond benv input_dir output_dir ("." ++ lowerStr target_format) f)) ∧
    ((batch_convert conv benv input_dir output_dir target_format recursive).success +
     (batch_convert conv benv input_dir output_dir target_format recursive).failed
      = benv.entries.countP (fun f => isCandidate input_dir f &&
          !skipCond benv input_dir output_dir ("." ++ lowerStr target_format) f)) := by
  rw [batch_convert_valid conv benv input_dir output_dir target_format recursive hdir hfmt]
  have H := foldl_batch_counts conv benv input_dir output_dir
    ("." ++ lowerStr target_format) benv.entries ⟨0, 0, 0, []⟩
  exact ⟨by simpa using H.2.1, by simpa using H.2.2⟩

/-- C2 witness: with both outputs present, the same-format candidate is
skipped and the cross-format candidate is converted. -/
theorem c2_skip_rule_witness :
    (batch_convert (mkImageConverter 95 true) benvC2 "in" "out" "png" false).skipped = 1 ∧
    (batch_convert (mkImageConverter 95 true) benvC2 "in" "out" "png" false).success +
    (batch_convert (mkImageConverter 95 true) benvC2 "in" "out" "png" false).failed = 1 :=
  have H := c2_skip_rule (mkImageConverter 95 true) benvC2 "in" "out" "png" false rfl rfl
  ⟨H.1.trans (by rfl), H.2.trans (by rfl)⟩

/-- Every log entry of the batch loop is either inherited from the initial
accumulator, a skip, or the result of a conversion started with no resize
target and maintain-aspect true. -/
theorem batch_log_mem (conv : ImageConverter) (benv : BatchEnv)
    (input_dir output_dir target_ext : String) :
    ∀ (l : List GlobEntry) (acc : BatchResult) (f : GlobEntry) (out : Outcome),
      (f, out) ∈ (l.foldl (batchStep conv benv input_dir output_dir target_ext) acc).log →
      (f, out) ∈ acc.log ∨ out = Outcome.skippedFile ∨
        out = Outcome.ran (convertBody (benv.fileEnv f) conv (entryPath input_dir f)
          (outFilePath output_dir target_ext f) none true) := by
  intro l
  induction l with
  | nil => intro acc f out hmem; exact Or.inl hmem
  | cons g t ih =>
    intro acc f out hmem
    rw [List.foldl_cons] at hmem
    rcases ih (batchStep conv benv input_dir output_dir target_ext acc g) f out hmem
      with hin | hrest
    · unfold batchStep at hin
      by_cases hc : isCandidate input_dir g = true
      · rw [if_pos hc] at hin
        by_cases hs : skipCond benv input_dir output_dir target_ext g = true
        · rw [if_pos hs] at hin
          rcases List.mem_append.mp hin with hl | hr
          · exact Or.inl hl
          · rcases List.mem_singleton.mp hr with heq
            rcases Prod.mk.injEq .. ▸ heq with _
            exact Or.inr (Or.inl (congrArg Prod.snd heq))
        · rw [if_neg hs] at hin
          simp only [] at hin
          by_cases hv : convOk (convertBody (benv.fileEnv g) conv (entryPath input_dir g)
              (outFilePath output_dir target_ext g) none true) = true
          · rw [if_pos hv] at hin
            rcases List.mem_append.mp hin with hl | hr
            · exact Or.inl hl
            · have heq := List.mem_singleton.mp hr
              have hf : f = g := congrArg Prod.fst heq
              have ho := congrArg Prod.snd heq
              subst hf
              exact Or.inr (Or.inr ho)
          · rw [if_neg hv] at hin
            rcases List.mem_append.mp hin with hl | hr
            · exact Or.inl hl
            · have heq := List.mem_singleton.mp hr
              have hf : f = g := congrArg Prod.fst heq
              have ho := congrArg Prod.snd heq
              subst hf
              exact Or.inr (Or.inr ho)
      · rw [if_neg hc] at hin
        exact Or.inl hin
    · exact Or.inr hrest

/-- C10: every conversion the batch orchestrator logs was started with no
resize target (the call on line 189 passes only input and output paths), so
a batch conversion that reached the save performed no fit and no direct
resize, and its output image keeps the decoded dimensions. -/
theorem c10_batch_never_resizes
    (conv : ImageConverter) (benv : BatchEnv)
    (input_dir output_dir target_format : String) (recursive : Bool) (f : GlobEntry)
    (res : Except String ConvRes)
    (hmem : (f, Outcome.ran res) ∈
      (batch_convert conv benv input_dir output_dir target_format recursive).log) :
    res = convertBody (benv.fileEnv f) conv (entryPath input_dir f)
        (outFilePath output_dir ("." ++ lowerStr target_format) f) none true ∧
    ∀ ops img, res = .ok (.done ops img) →
      ((∀ w h flt, Op.fitted w h flt ∉ ops) ∧ (∀ w h flt, Op.resizedTo w h flt ∉ ops)) ∧
      ∀ d, (benv.fileEnv f).decode (entryPath input_dir f) = .ok d →
        img.width = d.width ∧ img.height = d.height := by
  unfold batch_convert at hmem
  by_cases hd : benv.dirExists = false
  · rw [if_pos hd] at hmem
    simp at hmem
  · rw [if_neg hd] at hmem
    simp only [] at hmem
    by_cases hn : (lookupFormat ("." ++ lowerStr target_format)).isNone = true
    · rw [if_pos hn] at hmem
      simp at hmem
    · rw [if_neg hn] at hmem
      rcases batch_log_mem conv benv input_dir output_dir ("." ++ lowerStr target_format)
        benv.entries ⟨0, 0, 0, []⟩ f (Outcome.ran res) hmem with h0 | hskip | hran
      · simp at h0
      · exact absurd hskip (by simp)
      · have hres := Outcome.ran.inj hran
        refine ⟨hres, ?_⟩
        intro ops img hok
        rw [hres] at hok
        obtain ⟨d2, hd2, hops, himg⟩ := body_done_none _ conv _ _ true ops img hok
        constructor
        · subst hops
          constructor <;> intro w h flt <;>
            · simp only [compOpsOf]
              split <;> simp
        · intro d hdec
          rw [hd2] at hdec
          have hdd : d2 = d := Except.ok.inj hdec
          subst hdd
          subst himg
          refine ⟨?_, ?_⟩ <;>
            · unfold img1Of
              split <;> rfl

/-- C10 witness: the first candidate of a concrete batch run was converted
with no resize target and its output keeps the decoded 4 by 4 dimensions. -/
theorem c10_batch_never_resizes_witness :
    Except.ok (ConvRes.done [Op.decoded "in/a.jpg",
        Op.saved "out/a.png" "PNG" ⟨true, none, false, some 6, none⟩] ⟨"RGB", 4, 4⟩)
      = convertBody (benvC7.fileEnv ⟨[], "a.jpg", true⟩) (mkImageConverter 95 true)
          (entryPath "in" ⟨[], "a.jpg", true⟩)
          (outFilePath "out" ("." ++ lowerStr "png") ⟨[], "a.jpg", true⟩) none true ∧
    (PImage.mk "RGB" 4 4).width = 4 ∧ (PImage.mk "RGB" 4 4).height = 4 :=
  have H := c10_batch_never_resizes (mkImageConverter 95 true) benvC7 "in" "out" "png" false
    ⟨[], "a.jpg", true⟩
    (Except.ok (ConvRes.done [Op.decoded "in/a.jpg",
      Op.saved "out/a.png" "PNG" ⟨true, none, false, some 6, none⟩] ⟨"RGB", 4, 4⟩))
    (by decide)
  ⟨H.1, (H.2 [Op.decoded "in/a.jpg",
      Op.saved "out/a.png" "PNG" ⟨true, none, false, some 6, none⟩] ⟨"RGB", 4, 4⟩ rfl).2
    ⟨"RGB", 4, 4⟩ rfl⟩
